import Mathlib

/-!
Verification development for the FantasyTeamBuilder repository
(`teamBuilder.py`).  Numbers are modelled as exact rationals (`ℚ`).
Python's builtin `round(x, 2)` rounds half to even (banker's rounding);
`round2` below implements that on `ℚ`.  Python's `/` raises
`ZeroDivisionError` on a zero divisor, modelled by `pyDiv` returning
`none`.  Fallible computations return `Option`.
-/

/-! ## Definitions -/

/-- Round a rational to the nearest integer, halves to even
(the semantics of Python's builtin `round`). -/
def rhe (q : ℚ) : ℤ :=
  let f : ℤ := q.num.fdiv (q.den : ℤ)
  let r : ℚ := q - (f : ℚ)
  if r < 1 / 2 then f
  else if (1 : ℚ) / 2 < r then f + 1
  else if f % 2 = 0 then f else f + 1

/-- Python's `round(x, 2)`: round to two decimal places, halves to even. -/
def round2 (q : ℚ) : ℚ := (rhe (q * 100) : ℚ) / 100

/-- Python's `/` on numbers: `none` models a raised `ZeroDivisionError`. -/
def pyDiv (a b : ℚ) : Option ℚ := if b = 0 then none else some (a / b)

/-- One block of the `Player.stats` nested dictionary:
`{'pts': …, 'games': …, 'ppg': …}`. -/
structure PStats where
  pts : ℚ
  games : ℚ
  ppg : ℚ

/-- A `Player` object after `__init__` has run: name, the raw
two-entry position list (a missing second position is the string
`"nan"`, mirroring how the script's `str(x) != 'nan'` test treats a
pandas NaN), and the three stats blocks. -/
structure Player where
  name : String
  position : List String
  predicted : PStats
  last_week : PStats
  total : PStats

/-- One row of the ingested spreadsheet, the argument `d` of
`Player.__init__`. -/
structure Row where
  name : String
  position_1 : String
  position_2 : String
  points_7 : ℚ
  games_7 : ℚ
  games_total : ℚ
  points_total : ℚ
  games_this_week : ℚ

/-- `Player.predict_player_next_points`: the average of the overall ppg
and the last-week ppg, times the games scheduled next week, rounded to
two decimals. -/
def predict_player_next_points (total_ppg last_week_ppg games_this_week : ℚ) : ℚ :=
  round2 (((total_ppg + last_week_ppg) / 2) * games_this_week)

/-- `Player.__init__` together with `Player.calculate_player_stats`:
build a player from a spreadsheet row.  Each `ppg` is an unguarded
division rounded to two decimals; a zero games count raises
`ZeroDivisionError` (modelled as `none`). -/
def mkPlayer (d : Row) : Option Player :=
  match pyDiv d.points_7 d.games_7, pyDiv d.points_total d.games_total with
  | some lw, some tot =>
    let last_week_ppg := round2 lw
    let total_ppg := round2 tot
    let points_this_week := predict_player_next_points total_ppg last_week_ppg d.games_this_week
    match pyDiv points_this_week d.games_this_week with
    | some pr =>
      some { name := d.name
             position := [d.position_1, d.position_2]
             predicted := ⟨points_this_week, d.games_this_week, round2 pr⟩
             last_week := ⟨d.points_7, d.games_7, last_week_ppg⟩
             total := ⟨d.points_total, d.games_total, total_ppg⟩ }
    | none => none
  | _, _ => none

/-- `Player.get_prediction`. -/
def get_prediction (p : Player) : ℚ := p.predicted.pts

/-- `Team.get_players_by_position`: all players whose raw position list
contains the symbol, in ingestion order. -/
def get_players_by_position (players : List Player) (position : String) : List Player :=
  players.filter (fun p => p.position.contains position)

/-- `Team.predict_team_next_points` on a sub-list: accumulate the
predictions and round the total to two decimals. -/
def predict_team_next_points (sub_list : List Player) : ℚ :=
  round2 (sub_list.foldl (fun acc p => acc + get_prediction p) 0)

/-- Python's `itertools.combinations(l, 2)` in its enumeration order. -/
def pyPairs {α : Type} : List α → List (α × α)
  | [] => []
  | x :: xs => xs.map (fun y => (x, y)) ++ pyPairs xs

/-- A candidate forward lineup: a Right pair, a Left pair and a Center
pair, in the nesting order of the triple loop. -/
abbrev Cand := (Player × Player) × (Player × Player) × (Player × Player)

/-- The triple-nested enumeration shared by both optimizer modes:
Right pairs outermost, then Left, then Center. -/
def fwdCandidates (players : List Player) : List Cand :=
  (pyPairs (get_players_by_position players "R")).flatMap (fun Rpair =>
    (pyPairs (get_players_by_position players "L")).flatMap (fun Lpair =>
      (pyPairs (get_players_by_position players "C")).map (fun Cpair =>
        (Rpair, Lpair, Cpair))))

/-- `concat_list = list(Rpair+Lpair+Cpair)`. -/
def candPlayers (c : Cand) : List Player :=
  [c.1.1, c.1.2, c.2.1.1, c.2.1.2, c.2.2.1, c.2.2.2]

/-- `concat_list_names`. -/
def candNames (c : Cand) : List String := (candPlayers c).map Player.name

/-- The `len(np.unique(names)) == len(names)` duplicate test:
`np.unique` sorts and removes repeats, so the lengths agree exactly
when no name repeats. -/
def uniqueCheck (l : List String) : Bool := l.dedup.length == l.length

/-- A candidate survives when no name repeats among its six players. -/
def isValid (c : Cand) : Bool := uniqueCheck (candNames c)

/-- `combo_sum` for a candidate. -/
def comboScore (c : Cand) : ℚ := predict_team_next_points (candPlayers c)

/-- The running state of the optimal search: `max_fwd_sum` and
`max_fwd_lineup` as the `(C, R, L)` lists. -/
def optStep (acc : ℚ × (List Player × List Player × List Player)) (c : Cand) :
    ℚ × (List Player × List Player × List Player) :=
  if isValid c then
    if acc.1 < comboScore c then
      (comboScore c, ([c.2.2.1, c.2.2.2], [c.1.1, c.1.2], [c.2.1.1, c.2.1.2]))
    else acc
  else acc

/-- The forward search of `set_optimal_starting_roster`:
`max_fwd_sum = 0` initially, strict `>` comparison. -/
def optFold (players : List Player) : ℚ × (List Player × List Player × List Player) :=
  (fwdCandidates players).foldl optStep (0, ([], [], []))

/-- The `starting_roster` dictionary. -/
structure Roster where
  C : List Player
  L : List Player
  R : List Player
  D : List Player
  G : List Player

/-- The roster as `Team.__init__` leaves it: every slot empty. -/
def initRoster : Roster := ⟨[], [], [], [], []⟩

/-- Stable insertion for a descending sort on predicted points: the new
element goes after every element with a greater-or-equal key, which is
exactly where Python's stable `list.sort(key=…, reverse=True)` puts it. -/
def insertDesc (x : Player) : List Player → List Player
  | [] => [x]
  | y :: ys =>
    if get_prediction x < get_prediction y then y :: insertDesc x ys
    else x :: y :: ys

/-- Stable sort by predicted points, descending — extensionally the
output of Python's stable `sort(key=lambda x: x.get_prediction(),
reverse=True)`. -/
def sortPredDesc : List Player → List Player
  | [] => []
  | x :: xs => insertDesc x (sortPredDesc xs)

/-- `Team.set_optimal_starting_roster` as a state transformer on the
roster: exhaustive forward search, then sorted top-4 Defense and
top-2 Goalie.  (The input roster is never read: every entry is
assigned.) -/
def set_optimal_starting_roster (players : List Player) (r : Roster) : Roster :=
  let m := optFold players
  { C := m.2.1
    R := m.2.2.1
    L := m.2.2.2
    D := (sortPredDesc (get_players_by_position players "D")).take 4
    G := (sortPredDesc (get_players_by_position players "G")).take 2 }

/-- `Team.set_random_starting_roster`: first 4 Defense and first 2
Goalie in ingestion order (no sort), then the first duplicate-free
forward triple; when no such triple exists the function falls through
and the forward entries of the input roster are left untouched. -/
def set_random_starting_roster (players : List Player) (r : Roster) : Roster :=
  let withDG : Roster :=
    { r with
      D := (get_players_by_position players "D").take 4
      G := (get_players_by_position players "G").take 2 }
  match (fwdCandidates players).find? isValid with
  | some c =>
    { withDG with
      R := [c.1.1, c.1.2]
      L := [c.2.1.1, c.2.1.2]
      C := [c.2.2.1, c.2.2.2] }
  | none => withDG

/-- An argument passed for the `name` parameter of
`Team.get_player_by_name`: either a Python `str` or a value of some
other type. -/
inductive PyArg where
  | str (s : String)
  | nonStr

/-- `Team.get_player_by_name`: iterate over the players, asserting
`type(name) is str` on each iteration before comparing.
`Except.error ()` models an `AssertionError`. -/
def get_player_by_name (players : List Player) (name : PyArg) :
    Except Unit (Option Player) :=
  match players with
  | [] => Except.ok none
  | p :: ps =>
    match name with
    | PyArg.str s =>
      if s = p.name then Except.ok (some p) else get_player_by_name ps name
    | PyArg.nonStr => Except.error ()

/-- One optimizer call: `true` is `set_optimal_starting_roster`,
`false` is `set_random_starting_roster`. -/
def applyCall (b : Bool) (players : List Player) (r : Roster) : Roster :=
  if b then set_optimal_starting_roster players r
  else set_random_starting_roster players r

/-- Modelled from the spec: the spec's three-window prediction, which
the repository's code does not contain.  From cumulative counters at
the 7-, 14- and 30-day cutoffs, form the three non-overlapping windows
by differencing, take each window's points-per-game (zero when its
games count is zero, rounded to two decimals), and return the
arithmetic mean of the three ppg values times the scheduled games,
rounded to two decimals. -/
def windowPpg (pts games : ℚ) : ℚ := if games = 0 then 0 else round2 (pts / games)

/-- Modelled from the spec: see `windowPpg`. -/
def specPredictThreeWindow (g7 p7 g14 p14 g30 p30 n : ℚ) : ℚ :=
  round2 (((windowPpg p7 g7 + windowPpg (p14 - p7) (g14 - g7) +
            windowPpg (p30 - p14) (g30 - g14)) / 3) * n)

/-- Reference recursion describing the optimal search: the first
candidate that beats the running threshold and is never strictly
beaten afterwards. -/
def specPickRec (q : ℚ) : List Cand → Option Cand
  | [] => none
  | c :: cs =>
    if isValid c = true ∧ q < comboScore c then
      match specPickRec (comboScore c) cs with
      | none => some c
      | some c' => some c'
    else specPickRec q cs

/-- A player whose three stats blocks all carry the same integral
value `v` with a single game in each window; built by `mkPlayer` from
the row `(v, 1, 1, v, 1)`, see `mkPlayer_simple`. -/
def simplePlayer (nm p1 : String) (v : ℚ) : Player :=
  ⟨nm, [p1, "nan"], ⟨v, 1, v⟩, ⟨v, 1, v⟩, ⟨v, 1, v⟩⟩

/-- The row used for the C1 counterexample: 4 points in 1 game over the
last 7 days, 6 points in 3 games overall (matching 30-day cumulative
counters `g14 = 2, p14 = 6, g30 = 3, p30 = 6`), 2 games scheduled. -/
def rowX : Row := ⟨"X", "C", "nan", 4, 1, 3, 6, 2⟩

/-- The player the code builds from `rowX`. -/
def playerX : Player := ⟨"X", ["C", "nan"], ⟨6, 2, 3⟩, ⟨4, 1, 4⟩, ⟨6, 3, 2⟩⟩

/-- The row used for the C2 counterexample: zero games played in the
last-week window. -/
def rowZ : Row := ⟨"Z", "C", "nan", 1, 0, 1, 1, 1⟩

def pRa : Player := simplePlayer "Ra" "R" 0
def pRb : Player := simplePlayer "Rb" "R" 0
def pLa : Player := simplePlayer "La" "L" 0
def pLb : Player := simplePlayer "Lb" "L" 0
def pCa : Player := simplePlayer "Ca" "C" 0
def pCb : Player := simplePlayer "Cb" "C" 0

/-- A team of six forwards, two per forward position, all with
predicted points 0. -/
def teamZero : List Player := [pRa, pRb, pLa, pLb, pCa, pCb]

/-- The unique candidate of `teamZero`. -/
def czero : Cand := ((pRa, pRb), (pLa, pLb), (pCa, pCb))

def pR1 : Player := simplePlayer "R1" "R" 1
def pR2 : Player := simplePlayer "R2" "R" 2
def pL1 : Player := simplePlayer "L1" "L" 3
def pL2 : Player := simplePlayer "L2" "L" 4
def pC1 : Player := simplePlayer "C1" "C" 5
def pC2 : Player := simplePlayer "C2" "C" 6

/-- A team of six forwards with positive predictions 1..6. -/
def teamPos : List Player := [pR1, pR2, pL1, pL2, pC1, pC2]

/-- The unique candidate of `teamPos`. -/
def cPos : Cand := ((pR1, pR2), (pL1, pL2), (pC1, pC2))

/-- Two right wings and two left wings with positive predictions but
no center at all. -/
def teamNoC : List Player := [pR1, pR2, pL1, pL2]

def pDa : Player := simplePlayer "Da" "D" 3
def pDb : Player := simplePlayer "Db" "D" 7
def pDc : Player := simplePlayer "Dc" "D" 1
def pDd : Player := simplePlayer "Dd" "D" 9
def pDe : Player := simplePlayer "De" "D" 2

/-- A defense pool of five players with predicted scores
[3, 7, 1, 9, 2] in ingestion order (the spec's concrete scenario). -/
def teamD5 : List Player := [pDa, pDb, pDc, pDd, pDe]

/-- The three forward entries of a roster are empty. -/
def fwEmpty (r : Roster) : Prop := r.C = [] ∧ r.L = [] ∧ r.R = []

/-! ## Lemmas and claim theorems -/

lemma rhe_intCast (n : ℤ) : rhe ((n : ℚ)) = n := by
  unfold rhe
  simp [Rat.num_intCast, Rat.den_intCast, Int.fdiv_one]

lemma round2_of_mul_eq (q : ℚ) (n : ℤ) (h : q * 100 = (n : ℚ)) :
    round2 q = (n : ℚ) / 100 := by
  unfold round2
  rw [h, rhe_intCast]

lemma round2_intCast (n : ℤ) : round2 ((n : ℚ)) = (n : ℚ) := by
  have h : ((n : ℚ)) * 100 = ((n * 100 : ℤ) : ℚ) := by push_cast; ring
  rw [round2_of_mul_eq _ _ h]
  push_cast
  field_simp

lemma round2_zero : round2 0 = 0 := by
  have := round2_intCast 0
  simpa using this

lemma uniqueCheck_iff (l : List String) : uniqueCheck l = true ↔ l.Nodup := by
  unfold uniqueCheck
  rw [beq_iff_eq]
  constructor
  · intro h
    have hsub := List.dedup_sublist l
    have heq := hsub.eq_of_length h
    rw [← heq]
    exact List.nodup_dedup l
  · intro h
    rw [List.dedup_eq_self.mpr h]

lemma pyPairs_eq_nil {α : Type} (l : List α) (h : l.length < 2) : pyPairs l = [] := by
  match l with
  | [] => rfl
  | [x] => rfl
  | x :: y :: xs => simp at h; omega

lemma foldl_optStep_eq (cs : List Cand) :
    ∀ (q : ℚ) (lu : List Player × List Player × List Player),
    cs.foldl optStep (q, lu) =
      match specPickRec q cs with
      | none => (q, lu)
      | some c =>
        (comboScore c, ([c.2.2.1, c.2.2.2], [c.1.1, c.1.2], [c.2.1.1, c.2.1.2])) := by
  induction cs with
  | nil => intro q lu; simp [specPickRec]
  | cons c cs ih =>
    intro q lu
    by_cases hv : isValid c = true
    · by_cases hq : q < comboScore c
      · have hcond : isValid c = true ∧ q < comboScore c := ⟨hv, hq⟩
        simp only [List.foldl_cons, optStep, hv, if_true, hq, specPickRec, if_pos hcond]
        rw [ih]
        cases specPickRec (comboScore c) cs <;> rfl
      · have hcond : ¬(isValid c = true ∧ q < comboScore c) := by tauto
        have hstep : optStep (q, lu) c = (q, lu) := by
          simp only [optStep, hv, if_true]
          rw [if_neg hq]
        have hrec : specPickRec q (c :: cs) = specPickRec q cs := by
          simp only [specPickRec]
          rw [if_neg hcond]
        rw [List.foldl_cons, hstep, hrec]
        exact ih q lu
    · have hcond : ¬(isValid c = true ∧ q < comboScore c) := by tauto
      have hstep : optStep (q, lu) c = (q, lu) := by
        simp only [optStep]
        rw [if_neg hv]
      have hrec : specPickRec q (c :: cs) = specPickRec q cs := by
        simp only [specPickRec]
        rw [if_neg hcond]
      rw [List.foldl_cons, hstep, hrec]
      exact ih q lu

lemma specPickRec_eq_none_iff (cs : List Cand) :
    ∀ q, specPickRec q cs = none ↔
      ∀ c ∈ cs, isValid c = true → comboScore c ≤ q := by
  induction cs with
  | nil => intro q; simp [specPickRec]
  | cons c cs ih =>
    intro q
    by_cases hcond : isValid c = true ∧ q < comboScore c
    · simp only [specPickRec, if_pos hcond]
      constructor
      · intro h
        cases hrec : specPickRec (comboScore c) cs <;> rw [hrec] at h <;> simp at h
      · intro h
        exact absurd (h c (List.mem_cons_self c cs) hcond.1) (not_le.mpr hcond.2)
    · simp only [specPickRec, if_neg hcond]
      rw [ih q]
      constructor
      · intro h c' hc' hv
        rcases List.mem_cons.mp hc' with rfl | hmem
        · rcases not_and_or.mp hcond with h1 | h2
          · exact absurd hv h1
          · exact not_lt.mp h2
        · exact h c' hmem hv
      · intro h c' hc' hv
        exact h c' (List.mem_cons_of_mem c hc') hv

lemma specPickRec_some_spec (cs : List Cand) :
    ∀ q c, specPickRec q cs = some c →
      c ∈ cs ∧ isValid c = true ∧ q < comboScore c ∧
        ∀ c' ∈ cs, isValid c' = true → comboScore c' ≤ comboScore c := by
  induction cs with
  | nil => intro q c h; simp [specPickRec] at h
  | cons a cs ih =>
    intro q c h
    by_cases hcond : isValid a = true ∧ q < comboScore a
    · simp only [specPickRec, if_pos hcond] at h
      cases hrec : specPickRec (comboScore a) cs with
      | none =>
        rw [hrec] at h
        injection h with h'
        subst h'
        refine ⟨List.mem_cons_self _ _, hcond.1, hcond.2, ?_⟩
        intro c' hc' hv
        rcases List.mem_cons.mp hc' with rfl | hmem
        · exact le_refl _
        · exact (specPickRec_eq_none_iff cs _).mp hrec c' hmem hv
      | some b =>
        rw [hrec] at h
        injection h with h'
        subst h'
        obtain ⟨hmem, hv, hlt, hmax⟩ := ih _ _ hrec
        refine ⟨List.mem_cons_of_mem _ hmem, hv, lt_trans hcond.2 hlt, ?_⟩
        intro c' hc' hv'
        rcases List.mem_cons.mp hc' with rfl | hmem'
        · exact le_of_lt hlt
        · exact hmax c' hmem' hv'
    · simp only [specPickRec, if_neg hcond] at h
      obtain ⟨hmem, hv, hlt, hmax⟩ := ih _ _ h
      refine ⟨List.mem_cons_of_mem _ hmem, hv, hlt, ?_⟩
      intro c' hc' hv'
      rcases List.mem_cons.mp hc' with rfl | hmem'
      · rcases not_and_or.mp hcond with h1 | h2
        · exact absurd hv' h1
        · exact le_trans (not_lt.mp h2) (le_of_lt hlt)
      · exact hmax c' hmem' hv'

lemma specPickRec_append (l₂ : List Cand) (c : Cand) (hv : isValid c = true)
    (hl₂ : ∀ c' ∈ l₂, isValid c' = true → comboScore c' ≤ comboScore c) :
    ∀ (l₁ : List Cand) (q : ℚ), q < comboScore c →
      (∀ c' ∈ l₁, isValid c' = true → comboScore c' < comboScore c) →
      specPickRec q (l₁ ++ c :: l₂) = some c := by
  intro l₁
  induction l₁ with
  | nil =>
    intro q hq _
    simp only [List.nil_append, specPickRec, if_pos (And.intro hv hq)]
    rw [(specPickRec_eq_none_iff l₂ _).mpr hl₂]
  | cons a l₁ ih =>
    intro q hq hl₁
    have ha := hl₁ a (List.mem_cons_self _ _)
    by_cases hcond : isValid a = true ∧ q < comboScore a
    · simp only [List.cons_append, specPickRec, if_pos hcond, List.append_eq]
      rw [ih (comboScore a) (ha hcond.1)
        (fun c' h hv' => hl₁ c' (List.mem_cons_of_mem _ h) hv')]
    · simp only [List.cons_append, specPickRec, if_neg hcond, List.append_eq]
      exact ih q hq (fun c' h hv' => hl₁ c' (List.mem_cons_of_mem _ h) hv')

lemma foldl_pred_eq (l : List Player) :
    ∀ a : ℚ, l.foldl (fun acc p => acc + get_prediction p) a
      = a + (l.map get_prediction).sum := by
  induction l with
  | nil => intro a; simp
  | cons p ps ih =>
    intro a
    simp only [List.foldl_cons, List.map_cons, List.sum_cons, ih]
    ring

lemma predict_team_next_points_eq (l : List Player) :
    predict_team_next_points l = round2 ((l.map get_prediction).sum) := by
  unfold predict_team_next_points
  rw [foldl_pred_eq]
  simp

lemma predict_team_next_points_nil : predict_team_next_points [] = 0 := by
  rw [predict_team_next_points_eq]
  simpa using round2_zero

lemma insertDesc_perm (x : Player) :
    ∀ l : List Player, (insertDesc x l).Perm (x :: l) := by
  intro l
  induction l with
  | nil => exact List.Perm.refl _
  | cons y ys ih =>
    simp only [insertDesc]
    by_cases h : get_prediction x < get_prediction y
    · rw [if_pos h]
      exact List.Perm.trans (ih.cons y) (List.Perm.swap x y ys)
    · rw [if_neg h]

lemma sortPredDesc_perm : ∀ l : List Player, (sortPredDesc l).Perm l := by
  intro l
  induction l with
  | nil => exact List.Perm.refl _
  | cons x xs ih =>
    simp only [sortPredDesc]
    exact List.Perm.trans (insertDesc_perm x (sortPredDesc xs)) (ih.cons x)

lemma insertDesc_pairwise (x : Player) :
    ∀ l : List Player,
      l.Pairwise (fun a b => get_prediction b ≤ get_prediction a) →
      (insertDesc x l).Pairwise (fun a b => get_prediction b ≤ get_prediction a) := by
  intro l
  induction l with
  | nil => intro _; simp [insertDesc]
  | cons y ys ih =>
    intro hp
    rcases List.pairwise_cons.mp hp with ⟨hy, hys⟩
    simp only [insertDesc]
    by_cases h : get_prediction x < get_prediction y
    · rw [if_pos h]
      refine List.pairwise_cons.mpr ⟨?_, ih hys⟩
      intro z hz
      rcases List.mem_cons.mp ((insertDesc_perm x ys).mem_iff.mp hz) with rfl | hz'
      · exact le_of_lt h
      · exact hy z hz'
    · rw [if_neg h]
      refine List.pairwise_cons.mpr ⟨?_, hp⟩
      intro z hz
      rcases List.mem_cons.mp hz with rfl | hz'
      · exact not_lt.mp h
      · exact le_trans (hy z hz') (not_lt.mp h)

lemma sortPredDesc_pairwise :
    ∀ l : List Player,
      (sortPredDesc l).Pairwise (fun a b => get_prediction b ≤ get_prediction a) := by
  intro l
  induction l with
  | nil => simp [sortPredDesc]
  | cons x xs ih =>
    simp only [sortPredDesc]
    exact insertDesc_pairwise x (sortPredDesc xs) ih

lemma round2_eq_self_int (q : ℚ) (n : ℤ) (h : q = (n : ℚ)) : round2 q = q := by
  rw [h, round2_intCast]

lemma mkPlayer_simple (nm p1 : String) (v : ℚ) (hv : round2 v = v) :
    mkPlayer ⟨nm, p1, "nan", v, 1, 1, v, 1⟩ = some (simplePlayer nm p1 v) := by
  have h2 : ((v + v) / 2 : ℚ) = v := by ring
  simp only [mkPlayer, pyDiv, predict_player_next_points, simplePlayer, one_ne_zero,
    if_false, div_one, mul_one, h2, hv]

/-- Closed form of `mkPlayer` when no games count is zero. -/
lemma mkPlayer_eq (d : Row) (h7 : ¬d.games_7 = 0) (ht : ¬d.games_total = 0)
    (hw : ¬d.games_this_week = 0) :
    mkPlayer d = some
      { name := d.name
        position := [d.position_1, d.position_2]
        predicted :=
          ⟨predict_player_next_points (round2 (d.points_total / d.games_total))
              (round2 (d.points_7 / d.games_7)) d.games_this_week,
            d.games_this_week,
            round2 (predict_player_next_points (round2 (d.points_total / d.games_total))
                (round2 (d.points_7 / d.games_7)) d.games_this_week / d.games_this_week)⟩
        last_week := ⟨d.points_7, d.games_7, round2 (d.points_7 / d.games_7)⟩
        total := ⟨d.points_total, d.games_total, round2 (d.points_total / d.games_total)⟩ } := by
  simp only [mkPlayer, pyDiv, if_neg h7, if_neg ht, if_neg hw]

lemma round2_four : round2 (4 : ℚ) = 4 := round2_eq_self_int _ 4 (by norm_num)

lemma round2_two : round2 (2 : ℚ) = 2 := round2_eq_self_int _ 2 (by norm_num)

lemma round2_six : round2 (6 : ℚ) = 6 := round2_eq_self_int _ 6 (by norm_num)

lemma round2_three : round2 (3 : ℚ) = 3 := round2_eq_self_int _ 3 (by norm_num)

lemma mkPlayer_rowX : mkPlayer rowX = some playerX := by
  rw [mkPlayer_eq rowX (by norm_num [rowX]) (by norm_num [rowX]) (by norm_num [rowX])]
  have h1 : rowX.points_7 / rowX.games_7 = (4 : ℚ) := by norm_num [rowX]
  have h2 : rowX.points_total / rowX.games_total = (2 : ℚ) := by norm_num [rowX]
  rw [h1, h2, round2_four, round2_two]
  have h3 : predict_player_next_points 2 4 rowX.games_this_week = 6 := by
    unfold predict_player_next_points
    have : (((2 : ℚ) + 4) / 2) * rowX.games_this_week = 6 := by norm_num [rowX]
    rw [this, round2_six]
  rw [h3]
  have h4 : (6 : ℚ) / rowX.games_this_week = 3 := by norm_num [rowX]
  rw [h4, round2_three]
  simp [rowX, playerX]

lemma specPredictThreeWindow_rowX : specPredictThreeWindow 1 4 2 6 3 6 2 = 4 := by
  have r4 : round2 (4 : ℚ) = 4 := round2_eq_self_int _ 4 (by norm_num)
  have r2 : round2 (2 : ℚ) = 2 := round2_eq_self_int _ 2 (by norm_num)
  have r0 : round2 (0 : ℚ) = 0 := round2_zero
  simp only [specPredictThreeWindow, windowPpg]
  norm_num [r4, r2, r0]

lemma mkPlayer_rowZ : mkPlayer rowZ = none := by
  simp [mkPlayer, pyDiv, rowZ]

lemma fwdCandidates_teamZero : fwdCandidates teamZero = [czero] := rfl

lemma isValid_czero : isValid czero = true := by decide

lemma comboScore_czero : comboScore czero = 0 := by
  unfold comboScore
  rw [predict_team_next_points_eq]
  have h : ((candPlayers czero).map get_prediction).sum = 0 := by
    simp [candPlayers, czero, pRa, pRb, pLa, pLb, pCa, pCb, simplePlayer, get_prediction]
  rw [h, round2_zero]

lemma optFold_teamZero : optFold teamZero = (0, ([], [], [])) := by
  unfold optFold
  rw [fwdCandidates_teamZero]
  simp only [List.foldl_cons, List.foldl_nil, optStep, isValid_czero, if_true,
    comboScore_czero, lt_self_iff_false, if_false]

lemma fwdCandidates_teamPos : fwdCandidates teamPos = [cPos] := rfl

lemma isValid_cPos : isValid cPos = true := by decide

lemma comboScore_cPos : comboScore cPos = 21 := by
  unfold comboScore
  rw [predict_team_next_points_eq]
  have h : ((candPlayers cPos).map get_prediction).sum = 21 := by
    simp [candPlayers, cPos, pR1, pR2, pL1, pL2, pC1, pC2, simplePlayer, get_prediction]
    norm_num
  rw [h]
  exact round2_eq_self_int _ 21 (by norm_num)

lemma fwdCandidates_teamNoC : fwdCandidates teamNoC = [] := rfl

lemma teamD5_random_D_pred :
    ((set_random_starting_roster teamD5 initRoster).D).map get_prediction
      = [3, 7, 1, 9] := by
  have hfind : (fwdCandidates teamD5).find? isValid = none := rfl
  unfold set_random_starting_roster
  rw [hfind]
  simp [get_players_by_position, teamD5, pDa, pDb, pDc, pDd, pDe, simplePlayer,
    get_prediction, initRoster]

lemma teamD5_sorted_D_pred :
    (((sortPredDesc (get_players_by_position teamD5 "D")).take 4).map get_prediction)
      = [9, 7, 3, 2] := by
  have hpool : get_players_by_position teamD5 "D" = [pDa, pDb, pDc, pDd, pDe] := rfl
  rw [hpool]
  norm_num [sortPredDesc, insertDesc, get_prediction, pDa, pDb, pDc, pDd, pDe,
    simplePlayer]

lemma nil_flatMap {α β : Type} (f : α → List β) : ([] : List α).flatMap f = [] := rfl

lemma flatMap_const_nil {α β : Type} (l : List α) :
    l.flatMap (fun _ => ([] : List β)) = [] := by
  induction l with
  | nil => rfl
  | cons x xs ih => simp only [List.flatMap_cons, ih, List.nil_append]

lemma fwdCandidates_eq_nil (players : List Player)
    (h : (get_players_by_position players "R").length < 2 ∨
         (get_players_by_position players "L").length < 2 ∨
         (get_players_by_position players "C").length < 2) :
    fwdCandidates players = [] := by
  unfold fwdCandidates
  rcases h with h | h | h
  · rw [pyPairs_eq_nil _ h]
    rfl
  · rw [pyPairs_eq_nil _ h]
    simp only [nil_flatMap, flatMap_const_nil]
  · rw [pyPairs_eq_nil _ h]
    simp only [List.map_nil, flatMap_const_nil]

lemma set_random_D (players : List Player) (r : Roster) :
    (set_random_starting_roster players r).D
      = (get_players_by_position players "D").take 4 := by
  unfold set_random_starting_roster
  cases (fwdCandidates players).find? isValid <;> rfl

lemma set_random_G (players : List Player) (r : Roster) :
    (set_random_starting_roster players r).G
      = (get_players_by_position players "G").take 2 := by
  unfold set_random_starting_roster
  cases (fwdCandidates players).find? isValid <;> rfl

lemma specPickRec_of_find?_none (cs : List Cand)
    (h : cs.find? isValid = none) (q : ℚ) : specPickRec q cs = none := by
  rw [specPickRec_eq_none_iff]
  intro c hc hv
  exact absurd hv (List.find?_eq_none.mp h c hc)

lemma optFold_eq (players : List Player) :
    optFold players =
      match specPickRec 0 (fwdCandidates players) with
      | none => (0, ([], [], []))
      | some c =>
        (comboScore c, ([c.2.2.1, c.2.2.2], [c.1.1, c.1.2], [c.2.1.1, c.2.1.2])) := by
  unfold optFold
  exact foldl_optStep_eq _ 0 ([], [], [])

lemma get_player_by_name_absent (s : String) :
    ∀ players : List Player, (∀ p ∈ players, ¬p.name = s) →
      get_player_by_name players (PyArg.str s) = Except.ok none := by
  intro players
  induction players with
  | nil => intro _; rfl
  | cons p ps ih =>
    intro h
    have hne : ¬s = p.name := fun he => h p (List.mem_cons_self _ _) he.symm
    simp only [get_player_by_name]
    rw [if_neg hne]
    exact ih (fun p' hp' => h p' (List.mem_cons_of_mem _ hp'))

lemma set_random_const_of_some (players : List Player) (c : Cand)
    (hf : (fwdCandidates players).find? isValid = some c) (r r' : Roster) :
    set_random_starting_roster players r = set_random_starting_roster players r' := by
  unfold set_random_starting_roster
  rw [hf]

lemma set_random_of_none (players : List Player)
    (hf : (fwdCandidates players).find? isValid = none) (r : Roster) :
    set_random_starting_roster players r =
      { r with
        D := (get_players_by_position players "D").take 4
        G := (get_players_by_position players "G").take 2 } := by
  unfold set_random_starting_roster
  rw [hf]

lemma opt_forwards_none (players : List Player) (r : Roster)
    (hpick : specPickRec 0 (fwdCandidates players) = none) :
    (set_optimal_starting_roster players r).R ++
      (set_optimal_starting_roster players r).L ++
      (set_optimal_starting_roster players r).C = [] := by
  have hopt := optFold_eq players
  rw [hpick] at hopt
  simp [set_optimal_starting_roster, hopt]

lemma opt_forwards_some (players : List Player) (r : Roster) (c : Cand)
    (hpick : specPickRec 0 (fwdCandidates players) = some c) :
    (set_optimal_starting_roster players r).R ++
      (set_optimal_starting_roster players r).L ++
      (set_optimal_starting_roster players r).C = candPlayers c := by
  have hopt := optFold_eq players
  rw [hpick] at hopt
  simp [set_optimal_starting_roster, hopt, candPlayers]

lemma rand_forwards_none (players : List Player)
    (hf : (fwdCandidates players).find? isValid = none) :
    (set_random_starting_roster players initRoster).R ++
      (set_random_starting_roster players initRoster).L ++
      (set_random_starting_roster players initRoster).C = [] := by
  rw [set_random_of_none players hf]
  rfl

lemma rand_forwards_some (players : List Player) (c : Cand)
    (hf : (fwdCandidates players).find? isValid = some c) (r : Roster) :
    (set_random_starting_roster players r).R ++
      (set_random_starting_roster players r).L ++
      (set_random_starting_roster players r).C = candPlayers c := by
  unfold set_random_starting_roster
  rw [hf]
  simp [candPlayers]

/-- C1 counterexample.  On the row `(points_7 = 4, games_7 = 1,
games_total = 3, points_total = 6, games_this_week = 2)`
(consistent with cumulative counters `g14 = 2, p14 = 6`), the code
predicts 6 — the mean of the TWO stored ppg values (4 and 2) times 2 —
while the spec's mean-of-three-windows formula yields 4.  The
claim's prediction formula is therefore not the one implemented. -/
theorem C1_counterexample :
    (mkPlayer rowX).map (fun p => p.predicted.pts) = some 6 ∧
    specPredictThreeWindow 1 4 2 6 3 6 2 = 4 ∧
    (6 : ℚ) ≠ 4 := by
  refine ⟨?_, specPredictThreeWindow_rowX, by norm_num⟩
  rw [mkPlayer_rowX]
  rfl

/-- C1 amended: for every player the code builds, the predicted points
equal `round(mean of the TWO stored ppg values (overall and last-week)
× scheduled games, 2)` — a pure function of the two points-per-game
values and the scheduled games; there is no third window. -/
theorem C1_amended_two_window_prediction (d : Row) (p : Player)
    (h : mkPlayer d = some p) :
    p.predicted.pts
      = predict_player_next_points p.total.ppg p.last_week.ppg p.predicted.games := by
  by_cases h7 : d.games_7 = 0
  · simp [mkPlayer, pyDiv, h7] at h
  · by_cases ht : d.games_total = 0
    · simp [mkPlayer, pyDiv, h7, ht] at h
    · by_cases hw : d.games_this_week = 0
      · simp [mkPlayer, pyDiv, h7, ht, hw] at h
      · rw [mkPlayer_eq d h7 ht hw] at h
        injection h with h'
        subst h'
        rfl

/-- C1 witness: the amended statement evaluated on the concrete row
`rowX`. -/
theorem C1_witness :
    playerX.predicted.pts
      = predict_player_next_points playerX.total.ppg playerX.last_week.ppg
          playerX.predicted.games :=
  C1_amended_two_window_prediction rowX playerX mkPlayer_rowX

/-- C2 counterexample.  On a row whose last-week games count is zero,
player construction does not succeed with a ppg of 0: the unguarded
division raises `ZeroDivisionError` (modelled as `none`). -/
theorem C2_counterexample : rowZ.games_7 = 0 ∧ mkPlayer rowZ = none :=
  ⟨rfl, mkPlayer_rowZ⟩

/-- C2 amended: player construction fails exactly when some window's
games count is zero; the division by zero is not guarded at all. -/
theorem C2_amended_zero_games_raises (d : Row) :
    mkPlayer d = none ↔
      (d.games_7 = 0 ∨ d.games_total = 0 ∨ d.games_this_week = 0) := by
  by_cases h7 : d.games_7 = 0
  · simp [mkPlayer, pyDiv, h7]
  · by_cases ht : d.games_total = 0
    · simp [mkPlayer, pyDiv, h7, ht]
    · by_cases hw : d.games_this_week = 0
      · simp [mkPlayer, pyDiv, h7, ht, hw]
      · simp [mkPlayer, pyDiv, h7, ht, hw]

/-- C3 counterexample.  On a team whose single surviving combination
scores 0, the optimizer commits an empty Center slot rather than the
surviving combination with the greatest sum: the running maximum
starts at 0 and `>` is strict, so no combination is ever retained. -/
theorem C3_counterexample :
    (∃ c ∈ fwdCandidates teamZero, isValid c = true) ∧
    (set_optimal_starting_roster teamZero initRoster).C = [] ∧
    (∀ c ∈ fwdCandidates teamZero, isValid c = true →
      (set_optimal_starting_roster teamZero initRoster).C ≠ [c.2.2.1, c.2.2.2]) := by
  have hC : (set_optimal_starting_roster teamZero initRoster).C = [] := by
    simp [set_optimal_starting_roster, optFold_teamZero]
  refine ⟨⟨czero, ?_, isValid_czero⟩, hC, ?_⟩
  · rw [fwdCandidates_teamZero]
    exact List.mem_singleton.mpr rfl
  · intro c hc _
    rw [fwdCandidates_teamZero, List.mem_singleton] at hc
    subst hc
    rw [hC]
    intro hbad
    exact List.cons_ne_nil _ _ hbad.symm

/-- C3 amended: the optimizer enumerates every triple of pairs, rejects
repeated names, and commits the first-seen surviving combination of
maximal predicted sum PROVIDED that sum exceeds 0 (the running maximum
is initialized to 0 with a strict comparison; otherwise the forward
slots stay empty). -/
theorem C3_amended_first_seen_max (players : List Player) (r : Roster)
    (l₁ l₂ : List Cand) (c : Cand)
    (hsplit : fwdCandidates players = l₁ ++ c :: l₂)
    (hv : isValid c = true) (hpos : 0 < comboScore c)
    (hbefore : ∀ c' ∈ l₁, isValid c' = true → comboScore c' < comboScore c)
    (hafter : ∀ c' ∈ l₂, isValid c' = true → comboScore c' ≤ comboScore c) :
    (set_optimal_starting_roster players r).C = [c.2.2.1, c.2.2.2] ∧
    (set_optimal_starting_roster players r).R = [c.1.1, c.1.2] ∧
    (set_optimal_starting_roster players r).L = [c.2.1.1, c.2.1.2] := by
  have hpick : specPickRec 0 (fwdCandidates players) = some c := by
    rw [hsplit]
    exact specPickRec_append l₂ c hv hafter l₁ 0 hpos hbefore
  have hopt := optFold_eq players
  rw [hpick] at hopt
  refine ⟨?_, ?_, ?_⟩ <;> simp [set_optimal_starting_roster, hopt]

/-- C3 witness: the amended statement evaluated on a team of six
forwards with positive predictions, whose single surviving candidate
is committed. -/
theorem C3_witness :
    (set_optimal_starting_roster teamPos initRoster).C = [pC1, pC2] ∧
    (set_optimal_starting_roster teamPos initRoster).R = [pR1, pR2] ∧
    (set_optimal_starting_roster teamPos initRoster).L = [pL1, pL2] :=
  C3_amended_first_seen_max teamPos initRoster [] [] cPos
    (by rw [fwdCandidates_teamPos]; rfl) isValid_cPos
    (by rw [comboScore_cPos]; norm_num)
    (by simp) (by simp)

/-- C4 counterexample.  With an empty Center pool but full Left and
Right pools, the optimizer leaves the Left and Right slots empty too:
the triple loop never reaches its body, so no forward is selected —
the claim's independent Left/Right selection does not happen. -/
theorem C4_counterexample :
    (get_players_by_position teamNoC "C").length = 0 ∧
    (get_players_by_position teamNoC "L").length = 2 ∧
    (get_players_by_position teamNoC "R").length = 2 ∧
    (set_optimal_starting_roster teamNoC initRoster).L = [] ∧
    (set_optimal_starting_roster teamNoC initRoster).R = [] :=
  ⟨rfl, rfl, rfl, rfl, rfl⟩

/-- C4 amended: whenever ANY forward pool holds fewer than 2 eligible
players, the optimizer does not raise and commits empty Center, Left
and Right slots (the whole forward lineup stays empty), while Defense
and Goalie are still selected as usual. -/
theorem C4_amended_short_pool_empties_forwards (players : List Player) (r : Roster)
    (h : (get_players_by_position players "R").length < 2 ∨
         (get_players_by_position players "L").length < 2 ∨
         (get_players_by_position players "C").length < 2) :
    (set_optimal_starting_roster players r).C = [] ∧
    (set_optimal_starting_roster players r).L = [] ∧
    (set_optimal_starting_roster players r).R = [] ∧
    (set_optimal_starting_roster players r).D
      = (sortPredDesc (get_players_by_position players "D")).take 4 ∧
    (set_optimal_starting_roster players r).G
      = (sortPredDesc (get_players_by_position players "G")).take 2 := by
  have hnil := fwdCandidates_eq_nil players h
  have hopt : optFold players = (0, ([], [], [])) := by
    unfold optFold
    rw [hnil]
    rfl
  refine ⟨?_, ?_, ?_, ?_, ?_⟩ <;> simp [set_optimal_starting_roster, hopt]

/-- C4 witness: the amended statement evaluated on the team with no
Center at all. -/
theorem C4_witness :
    (set_optimal_starting_roster teamNoC initRoster).C = [] ∧
    (set_optimal_starting_roster teamNoC initRoster).L = [] ∧
    (set_optimal_starting_roster teamNoC initRoster).R = [] ∧
    (set_optimal_starting_roster teamNoC initRoster).D
      = (sortPredDesc (get_players_by_position teamNoC "D")).take 4 ∧
    (set_optimal_starting_roster teamNoC initRoster).G
      = (sortPredDesc (get_players_by_position teamNoC "G")).take 2 :=
  C4_amended_short_pool_empties_forwards teamNoC initRoster
    (Or.inr (Or.inr (by decide)))

/-- C5 counterexample.  On the spec's own defense scenario (pool with
predicted scores [3, 7, 1, 9, 2] in ingestion order),
`set_random_starting_roster` fills Defense with the FIRST four players
in ingestion order (scores [3, 7, 1, 9]) and not with the sorted top
four (scores [9, 7, 3, 2]): the random mode performs no sort. -/
theorem C5_counterexample :
    ((set_random_starting_roster teamD5 initRoster).D).map get_prediction
      = [3, 7, 1, 9] ∧
    (((sortPredDesc (get_players_by_position teamD5 "D")).take 4).map get_prediction)
      = [9, 7, 3, 2] ∧
    (set_random_starting_roster teamD5 initRoster).D
      ≠ (sortPredDesc (get_players_by_position teamD5 "D")).take 4 := by
  refine ⟨teamD5_random_D_pred, teamD5_sorted_D_pred, fun h => ?_⟩
  have h3 := congrArg (List.map get_prediction) h
  rw [teamD5_random_D_pred, teamD5_sorted_D_pred] at h3
  injection h3 with h4 _
  exact absurd h4 (by norm_num)

/-- C5 amended: only `set_optimal_starting_roster` fills Defense and
Goalie from the stable descending sort (top 4 and top 2, ties keeping
ingestion order); `set_random_starting_roster` takes the first 4 and
first 2 of the pool in raw ingestion order without sorting.  The
sorted list is a permutation of the pool, pairwise descending in
predicted points. -/
theorem C5_amended_defense_goalie_by_mode (players : List Player) (r : Roster) :
    (set_optimal_starting_roster players r).D
        = (sortPredDesc (get_players_by_position players "D")).take 4 ∧
    (set_optimal_starting_roster players r).G
        = (sortPredDesc (get_players_by_position players "G")).take 2 ∧
    (set_random_starting_roster players r).D
        = (get_players_by_position players "D").take 4 ∧
    (set_random_starting_roster players r).G
        = (get_players_by_position players "G").take 2 ∧
    (sortPredDesc (get_players_by_position players "D")).Pairwise
        (fun a b => get_prediction b ≤ get_prediction a) ∧
    (sortPredDesc (get_players_by_position players "D")).Perm
        (get_players_by_position players "D") ∧
    (sortPredDesc (get_players_by_position players "G")).Pairwise
        (fun a b => get_prediction b ≤ get_prediction a) ∧
    (sortPredDesc (get_players_by_position players "G")).Perm
        (get_players_by_position players "G") :=
  ⟨rfl, rfl, set_random_D players r, set_random_G players r,
    sortPredDesc_pairwise _, sortPredDesc_perm _,
    sortPredDesc_pairwise _, sortPredDesc_perm _⟩

/-- C6: after `set_optimal_starting_roster` runs, no player name
appears twice among the six committed forward slots: the committed
lineup is either entirely empty or a candidate that passed the
duplicate-name check. -/
theorem C6_no_duplicate_forward_names (players : List Player) (r : Roster) :
    (((set_optimal_starting_roster players r).R ++
        (set_optimal_starting_roster players r).L ++
        (set_optimal_starting_roster players r).C).map Player.name).Nodup := by
  have hopt := optFold_eq players
  cases hpick : specPickRec 0 (fwdCandidates players) with
  | none =>
    rw [hpick] at hopt
    simp [set_optimal_starting_roster, hopt]
  | some c =>
    rw [hpick] at hopt
    have hv : isValid c = true := (specPickRec_some_spec _ _ _ hpick).2.1
    have hnd : (candNames c).Nodup := (uniqueCheck_iff _).mp hv
    have heq : ((set_optimal_starting_roster players r).R ++
        (set_optimal_starting_roster players r).L ++
        (set_optimal_starting_roster players r).C).map Player.name = candNames c := by
      simp [set_optimal_starting_roster, hopt, candNames, candPlayers]
    rw [heq]
    exact hnd

/-- C7: starting from the freshly initialized roster, the total
predicted score of the forwards committed by the optimal search is at
least that of the forwards committed by the random/fast search on the
same player pool. -/
theorem C7_optimal_ge_random (players : List Player) (r : Roster) :
    predict_team_next_points
        ((set_random_starting_roster players initRoster).R ++
          (set_random_starting_roster players initRoster).L ++
          (set_random_starting_roster players initRoster).C)
      ≤ predict_team_next_points
        ((set_optimal_starting_roster players r).R ++
          (set_optimal_starting_roster players r).L ++
          (set_optimal_starting_roster players r).C) := by
  cases hf : (fwdCandidates players).find? isValid with
  | none =>
    rw [rand_forwards_none players hf, predict_team_next_points_nil]
    cases hpick : specPickRec 0 (fwdCandidates players) with
    | none =>
      rw [opt_forwards_none players r hpick, predict_team_next_points_nil]
    | some c =>
      rw [opt_forwards_some players r c hpick]
      exact le_of_lt (specPickRec_some_spec _ _ _ hpick).2.2.1
  | some c₀ =>
    have hv₀ : isValid c₀ = true := List.find?_some hf
    have hmem₀ := List.mem_of_find?_eq_some hf
    rw [rand_forwards_some players c₀ hf initRoster]
    cases hpick : specPickRec 0 (fwdCandidates players) with
    | none =>
      rw [opt_forwards_none players r hpick, predict_team_next_points_nil]
      exact (specPickRec_eq_none_iff _ _).mp hpick c₀ hmem₀ hv₀
    | some c =>
      rw [opt_forwards_some players r c hpick]
      exact (specPickRec_some_spec _ _ _ hpick).2.2.2 c₀ hmem₀ hv₀

/-- C8: with the roster starting empty as in `Team.__init__`, the
roster produced by any optimizer call after any history of earlier
optimizer calls on the same team equals the roster that same call
produces from the initial state — no entry retains a value only an
earlier call could explain. -/
theorem C8_roster_history_independence (players : List Player)
    (history : List Bool) (b : Bool) :
    applyCall b players
        (history.foldl (fun s hb => applyCall hb players s) initRoster)
      = applyCall b players initRoster := by
  cases hf : (fwdCandidates players).find? isValid with
  | some c =>
    cases b
    · exact set_random_const_of_some players c hf _ _
    · rfl
  | none =>
    have hpres : ∀ (b' : Bool) (s : Roster), fwEmpty s → fwEmpty (applyCall b' players s) := by
      intro b' s hs
      cases b'
      · show fwEmpty (set_random_starting_roster players s)
        rw [set_random_of_none players hf]
        exact ⟨hs.1, hs.2.1, hs.2.2⟩
      · show fwEmpty (set_optimal_starting_roster players s)
        have hpick := specPickRec_of_find?_none _ hf 0
        have hopt := optFold_eq players
        rw [hpick] at hopt
        refine ⟨?_, ?_, ?_⟩ <;> simp [set_optimal_starting_roster, hopt]
    have hfoldInv : ∀ (hist : List Bool) (s : Roster), fwEmpty s →
        fwEmpty (hist.foldl (fun s hb => applyCall hb players s) s) := by
      intro hist
      induction hist with
      | nil => intro s hs; exact hs
      | cons hb hist ih =>
        intro s hs
        rw [List.foldl_cons]
        exact ih _ (hpres hb s hs)
    have hS := hfoldInv history initRoster ⟨rfl, rfl, rfl⟩
    cases b
    · show set_random_starting_roster players _ = set_random_starting_roster players initRoster
      rw [set_random_of_none players hf, set_random_of_none players hf]
      obtain ⟨h1, h2, h3⟩ := hS
      cases hstate : history.foldl (fun s hb => applyCall hb players s) initRoster with
      | mk sC sL sR sD sG =>
        rw [hstate] at h1 h2 h3
        subst h1
        subst h2
        subst h3
        rfl
    · rfl

/-- C9: when at least one duplicate-free combination exists but every
such combination's rounded predicted sum is at most 0, the optimizer
commits empty Center, LeftWing and RightWing slots: the running
maximum starts at 0 and candidates must strictly exceed it. -/
theorem C9_nonpositive_scores_empty_forwards (players : List Player) (r : Roster)
    (h₁ : ∃ c ∈ fwdCandidates players, isValid c = true)
    (h₂ : ∀ c ∈ fwdCandidates players, isValid c = true → comboScore c ≤ 0) :
    (set_optimal_starting_roster players r).C = [] ∧
    (set_optimal_starting_roster players r).L = [] ∧
    (set_optimal_starting_roster players r).R = [] := by
  have hpick : specPickRec 0 (fwdCandidates players) = none :=
    (specPickRec_eq_none_iff _ _).mpr h₂
  have hopt := optFold_eq players
  rw [hpick] at hopt
  refine ⟨?_, ?_, ?_⟩ <;> simp [set_optimal_starting_roster, hopt]

/-- C9 witness: the statement evaluated on the team whose single
surviving combination scores exactly 0. -/
theorem C9_witness :
    (set_optimal_starting_roster teamZero initRoster).C = [] ∧
    (set_optimal_starting_roster teamZero initRoster).L = [] ∧
    (set_optimal_starting_roster teamZero initRoster).R = [] :=
  C9_nonpositive_scores_empty_forwards teamZero initRoster
    ⟨czero, by rw [fwdCandidates_teamZero]; exact List.mem_singleton.mpr rfl,
      isValid_czero⟩
    (by
      intro c hc _
      rw [fwdCandidates_teamZero, List.mem_singleton] at hc
      subst hc
      rw [comboScore_czero])

/-- C10: `get_player_by_name` asserts `type(name) is str` inside the
loop: with a non-string argument it raises `AssertionError` whenever
the player list is non-empty, with an empty list it returns `None`
for an argument of any type, and with a string absent from the list it
returns `None` without raising. -/
theorem C10_get_player_by_name_assertion (players : List Player) (a : PyArg) :
    (players = [] → get_player_by_name players a = Except.ok none) ∧
    (a = PyArg.nonStr → players ≠ [] →
      get_player_by_name players a = Except.error ()) ∧
    (∀ s : String, a = PyArg.str s → (∀ p ∈ players, ¬p.name = s) →
      get_player_by_name players a = Except.ok none) := by
  refine ⟨?_, ?_, ?_⟩
  · intro h
    subst h
    rfl
  · intro ha hne
    subst ha
    cases players with
    | nil => exact absurd rfl hne
    | cons p ps => rfl
  · intro s ha habs
    subst ha
    exact get_player_by_name_absent s players habs

/-- C10 witness: the three branches evaluated on concrete inputs. -/
theorem C10_witness :
    get_player_by_name [] PyArg.nonStr = Except.ok none ∧
    get_player_by_name [pRa] PyArg.nonStr = Except.error () ∧
    get_player_by_name [pRa] (PyArg.str "Zz") = Except.ok none :=
  ⟨(C10_get_player_by_name_assertion [] PyArg.nonStr).1 rfl,
    (C10_get_player_by_name_assertion [pRa] PyArg.nonStr).2.1 rfl (by simp),
    (C10_get_player_by_name_assertion [pRa] (PyArg.str "Zz")).2.2 "Zz" rfl
      (by simp [pRa, simplePlayer])⟩

/-- C2 witness: the amended equivalence evaluated on the concrete row
with a zero last-week games count. -/
theorem C2_witness : mkPlayer rowZ = none :=
  (C2_amended_zero_games_raises rowZ).mpr (Or.inl rfl)
